import Mathlib

/-!
# Verification of the story-collection form component

Shallow embedding of `src/components/StoryCollectionApp.tsx` (and the
richer typed variant of the same component): the `sanitizeText` pipeline,
the attachment-upload flow (`handleFiles`, `uploadImageToCloudflare`,
`removeImage`), the declarative field-validation rules, and the
`onSubmit` orchestration, together with theorems about the behaviours
the specification claims.

Strings are modelled through their character lists; JavaScript regex
replacement with an empty replacement string is modelled as a single
left-to-right scan that removes each non-overlapping match and resumes
scanning immediately after it (exactly the semantics of
`String.prototype.replace` with a `/g` regex), implemented with a fuel
argument equal to the list length so that every definition is
structurally recursive and executable.
-/

namespace StoryApp

open scoped List

/-! ## Character classes used by the sanitizer regexes

`\w` in a JavaScript regex is `[A-Za-z0-9_]`; `\s` is the whitespace
class (its ASCII members are modelled here, matching the inputs the
component manipulates); `String.prototype.trim` strips the same class
from both ends. -/

def isWordChar (c : Char) : Bool :=
  c.isAlpha || c.isDigit || c = '_'

def isSpaceChar (c : Char) : Bool :=
  c = ' ' || c = '\t' || c = '\n' || c = '\r' || c = '\x0b' || c = '\x0c'

/-- Case-insensitive matching of a (lower-case) pattern against the
front of a character list, as the `i` flag does for an ASCII pattern. -/
def startsWithCI : List Char → List Char → Bool
  | [], _ => true
  | _ :: _, [] => false
  | p :: ps, c :: cs => (c.toLower = p) && startsWithCI ps cs

/-- Case-sensitive list version of JavaScript `String.prototype.startsWith`. -/
def startsWithList : List Char → List Char → Bool
  | [], _ => true
  | _ :: _, [] => false
  | p :: ps, c :: cs => (p = c) && startsWithList ps cs

/-! ## The sanitizer: `sanitizeText`

Source (identical in both variants of the component):

    const sanitizeText = (text) => {
      return text
        .replace(/[<>]/g, '')         // Remove basic HTML tags
        .replace(/javascript:/gi, '') // Remove javascript: protocol
        .replace(/on\w+\s*=/gi, '')   // Remove event handlers
        .trim();
    };
-/

/-- `.replace(/[<>]/g, '')`: drop every `<` and `>`. -/
def filterAngle (cs : List Char) : List Char :=
  cs.filter (fun c => !(c == '<' || c == '>'))

/-- Does `/javascript:/i` match at the head of the list? -/
def matchesJSAt (cs : List Char) : Bool :=
  startsWithCI ("javascript:".data) cs

/-- One left-to-right pass of `.replace(/javascript:/gi, '')`.  The fuel
is decremented once per emitted or removed chunk; since every step
consumes at least one character, fuel equal to the list length suffices. -/
def stripJSFuel : Nat → List Char → List Char
  | 0, cs => cs
  | _ + 1, [] => []
  | n + 1, c :: cs =>
    if matchesJSAt (c :: cs) then stripJSFuel n (List.drop 10 cs)
    else c :: stripJSFuel n cs

def stripJSChars (cs : List Char) : List Char :=
  stripJSFuel cs.length cs

/-- Length of the match of `/on\w+\s*=/i` at the head of the list, if
any.  `\w+` and `\s*` are matched greedily; because a word character is
neither whitespace nor `=`, the greedy match is the only possible one,
so no backtracking is lost. -/
def evtMatchLen (cs : List Char) : Option Nat :=
  match cs with
  | c1 :: c2 :: rest =>
    if (c1 = 'o' || c1 = 'O') && (c2 = 'n' || c2 = 'N') then
      let w := rest.takeWhile isWordChar
      if w.isEmpty then none
      else
        let afterW := rest.drop w.length
        let sp := afterW.takeWhile isSpaceChar
        match afterW.drop sp.length with
        | '=' :: _ => some (2 + w.length + sp.length + 1)
        | _ => none
    else none
  | _ => none

/-- One left-to-right pass of `.replace(/on\w+\s*=/gi, '')`. -/
def stripEvtFuel : Nat → List Char → List Char
  | 0, cs => cs
  | _ + 1, [] => []
  | n + 1, c :: cs =>
    match evtMatchLen (c :: cs) with
    | some L => stripEvtFuel n (List.drop (L - 1) cs)
    | none => c :: stripEvtFuel n cs

def stripEvtChars (cs : List Char) : List Char :=
  stripEvtFuel cs.length cs

/-- Strip trailing whitespace. -/
def trimRight (cs : List Char) : List Char :=
  (cs.reverse.dropWhile isSpaceChar).reverse

/-- `String.prototype.trim`: strip whitespace from both ends. -/
def trimChars (cs : List Char) : List Char :=
  trimRight (cs.dropWhile isSpaceChar)

def sanitizeChars (cs : List Char) : List Char :=
  trimChars (stripEvtChars (stripJSChars (filterAngle cs)))

/-- The component's `sanitizeText`. -/
def sanitizeText (s : String) : String :=
  ⟨sanitizeChars s.data⟩

/-- Does `/javascript:/i` match at some position of the list? -/
def hasJSOccurrence : List Char → Bool
  | [] => false
  | c :: cs => matchesJSAt (c :: cs) || hasJSOccurrence cs

/-- Does `/on\w+\s*=/i` match at some position of the list? -/
def hasEvtOccurrence : List Char → Bool
  | [] => false
  | c :: cs => (evtMatchLen (c :: cs)).isSome || hasEvtOccurrence cs

example : sanitizeText "  <b>Hello</b> world  " = "bHello/b world" := by decide
example : sanitizeText "a onclick = b" = "a  b" := by decide

/-! ## Data model

    interface UploadedImage {
      id: string; url: string; filename: string;
      variants: { public: string; thumbnail?: string };
    }

Files are modelled by the two properties the component reads: `name`
and `type` (the MIME type). -/

structure UploadedImage where
  id : String
  url : String
  filename : String
  variantsPublic : String
  variantsThumbnail : Option String
deriving DecidableEq, Repr

structure MyFile where
  name : String
  type : String
deriving DecidableEq, Repr

/-- `file.type.startsWith('image/')`. -/
def isImageFile (f : MyFile) : Bool :=
  startsWithList ("image/".data) f.type.data

/-! ## The upload endpoint environment

`uploadImageToCloudflare` POSTs one file and interprets the outcome.
The environment's behaviour for one request is one of: the fetch
rejecting (network error), `response.ok` false, a JSON body with
`success: false` (and an optional `error` string), or a JSON body with
`success: true` and an image descriptor. -/

inductive UploadResponse where
  | networkError
  | httpNotOk
  | apiFailure (error : Option String)
  | apiSuccess (image : UploadedImage)
deriving DecidableEq, Repr

/-- `uploadImageToCloudflare`: returns `result.image` when
`response.ok` holds and `result.success` is true; every failure is
caught inside the function and resolves to `null` (here `none`). -/
def uploadImageToCloudflare : UploadResponse → Option UploadedImage
  | UploadResponse.apiSuccess img => some img
  | _ => none

/-- The successful uploads of one `handleFiles` batch:
`files.filter(file => file.type.startsWith('image/'))`, one upload per
retained file via `Promise.all`, then
`.filter(result => result !== null)`.  Each dropped file is paired with
the endpoint's response to its upload. -/
def uploadResults (files : List (MyFile × UploadResponse)) : List UploadedImage :=
  (files.filter (fun fr => isImageFile fr.1)).filterMap
    (fun fr => uploadImageToCloudflare fr.2)

/-- `files.filter(file => file.type.startsWith('image/'))` on its own,
as used by both variants of `handleFiles`. -/
def imageFilesOf (files : List MyFile) : List MyFile :=
  files.filter (fun f => isImageFile f)

/-- The attachment list after a completed `handleFiles` batch:
`setUploadedImages(prev => [...prev, ...successfulUploads])`. -/
def handleFilesResult (prev : List UploadedImage)
    (files : List (MyFile × UploadResponse)) : List UploadedImage :=
  prev ++ uploadResults files

/-! ## Field validation

The rules registered on the three fields:

    name:  required, minLength 2, maxLength 100
    email: required, pattern /^[A-Z0-9._%+-]+@[A-Z0-9.-]+\.[A-Z]{2,}$/i
    story: required, minLength 10, maxLength 5000

`handleSubmit` runs `onSubmit` only when every rule passes (spec 4.1:
"On submit attempt, if any rule fails, submission does not proceed"). -/

def isLocalChar (c : Char) : Bool :=
  c.isAlpha || c.isDigit || c = '.' || c = '_' || c = '%' || c = '+' || c = '-'

def isDomChar (c : Char) : Bool :=
  c.isAlpha || c.isDigit || c = '.' || c = '-'

/-- Split a list at the first occurrence of `c`, if any. -/
def splitAtChar (c : Char) : List Char → Option (List Char × List Char)
  | [] => none
  | x :: xs =>
    if x = c then some ([], xs)
    else (splitAtChar c xs).map (fun p => (x :: p.1, p.2))

/-- The email pattern `/^[A-Z0-9._%+-]+@[A-Z0-9.-]+\.[A-Z]{2,}$/i`.
The local part precedes the unique possible `@`; after it, the string
must decompose as `domain ++ "." ++ tld` with a non-empty domain over
`[A-Z0-9.-]` and a final all-letter segment of length at least 2.
Because the TLD segment can contain no dot, the only candidate split is
at the last dot. -/
def validEmail (s : String) : Bool :=
  match splitAtChar '@' s.data with
  | none => false
  | some (loc, rest) =>
    !loc.isEmpty && loc.all isLocalChar &&
      (match splitAtChar '.' rest.reverse with
       | none => false
       | some (revTld, revDom) =>
         let dom := revDom.reverse
         let tld := revTld.reverse
         !dom.isEmpty && dom.all isDomChar && decide (2 ≤ tld.length) &&
           tld.all Char.isAlpha)

def validName (s : String) : Bool :=
  decide (s.length ≠ 0) && decide (2 ≤ s.length) && decide (s.length ≤ 100)

def validStory (s : String) : Bool :=
  decide (s.length ≠ 0) && decide (10 ≤ s.length) && decide (s.length ≤ 5000)

def submitProceeds (name email story : String) : Bool :=
  validName name && validEmail email && validStory story

example : validEmail "a@b.co" = true := by decide
example : validEmail "peter.martin+x@mail.example.org" = true := by decide
example : validEmail "not-an-email" = false := by decide
example : validEmail "a@b.c" = false := by decide

/-! ## Component state

The pieces of component state the claims are about: the three text
fields held by the form, the `uploadedImages` React state, the form
value registered under `'images'` (written by `setValue('images', ...)`
and cleared by `reset()`), the flags, the status message, and a count
of `console.error` calls. -/

structure ComponentState where
  isSubmitting : Bool
  submitMessage : String
  uploadedImages : List UploadedImage
  formImages : List UploadedImage
  formName : String
  formEmail : String
  formStory : String
  uploadingImages : Bool
  errorLogCount : Nat
deriving DecidableEq, Repr

def initComp : ComponentState :=
  { isSubmitting := false
    submitMessage := ""
    uploadedImages := []
    formImages := []
    formName := ""
    formEmail := ""
    formStory := ""
    uploadingImages := false
    errorLogCount := 0 }

/-! ## `removeImage`

    const removeImage = (index) => {
      const newImages = uploadedImages.filter((_, i) => i !== index);
      setUploadedImages(newImages);
      setValue('images', newImages);
    };

(`removeFile` in the untyped variant is the same function over
`uploadedFiles`.)  The index is an arbitrary JavaScript number, so it
is modelled as an integer. -/

/-- `l.filter((_, i) => i !== index)`. -/
def removeAtIdx (idx : Int) (l : List UploadedImage) : List UploadedImage :=
  (l.enum.filter (fun p => ((p.1 : Int) != idx))).map Prod.snd

def removeImage (idx : Int) (c : ComponentState) : ComponentState :=
  let newImages := removeAtIdx idx c.uploadedImages
  { c with uploadedImages := newImages, formImages := newImages }

/-! ## Submission

    const onSubmit = async (data) => { ... }

The environment's behaviour for the one `fetch` of a submission: the
fetch rejecting, `response.ok` false (which makes `onSubmit` throw
`'Submission failed'`), or `response.ok` true with the JSON body the
interface promises. -/

inductive SubmitOutcome where
  | networkError
  | httpNotOk
  | ok
deriving DecidableEq, Repr

/-- The JSON body POSTed to the submission endpoint. -/
structure StoryPayload where
  name : String
  email : String
  story : String
  images : List UploadedImage
  submittedAt : String
deriving DecidableEq, Repr

/-- The sanitized payload `onSubmit` builds:
`sanitizeText(data.name)`, `data.email.trim().toLowerCase()`,
`sanitizeText(data.story)`, the current `uploadedImages`, and the
timestamp. -/
def buildPayload (c : ComponentState) (now : String) : StoryPayload :=
  { name := sanitizeText c.formName
    email := ⟨(trimChars c.formEmail.data).map Char.toLower⟩
    story := sanitizeText c.formStory
    images := c.uploadedImages
    submittedAt := now }

def successMessage : String := "Story submitted successfully! Thank you for sharing."

def errorMessage : String := "Error submitting story. Please try again."

/-- One submit attempt: `handleSubmit` validates the registered rules
and, only if they all pass, runs `onSubmit`, which builds the payload,
POSTs it, and either resets everything with the success message or
catches, shows the generic error message and logs it.  The second
component records the POSTed payload, `none` when no network call was
made. -/
def submitAttempt (c : ComponentState) (resp : SubmitOutcome) (now : String) :
    ComponentState × Option StoryPayload :=
  if submitProceeds c.formName c.formEmail c.formStory then
    let payload := buildPayload c now
    match resp with
    | SubmitOutcome.ok =>
      ({ c with isSubmitting := false
                submitMessage := successMessage
                formName := ""
                formEmail := ""
                formStory := ""
                formImages := []
                uploadedImages := [] }, some payload)
    | _ =>
      ({ c with isSubmitting := false
                submitMessage := errorMessage
                errorLogCount := c.errorLogCount + 1 }, some payload)
  else (c, none)

/-! ## Event model of the component

`handleFiles` is asynchronous: when invoked it captures the render's
`uploadedImages` in its closure, fans out the uploads, and only when
`Promise.all` resolves performs

    setUploadedImages(prev => [...prev, ...successfulUploads]);
    setValue('images', [...uploadedImages, ...successfulUploads]);

The first write uses the functional updater (the state current at
completion time); the second uses the closure's captured list.  A batch
in flight is therefore modelled as the pair of its captured list and
the successful uploads it will deliver, and invoking `handleFiles` and
its completion are two separate events; the drop zone stays active
while a batch is uploading, so batches may overlap. -/

structure PendingUpload where
  captured : List UploadedImage
  results : List UploadedImage
deriving DecidableEq, Repr

inductive Event where
  /-- `handleFiles(files)` invoked; each file paired with the endpoint's
  response to its upload. -/
  | startFiles (files : List (MyFile × UploadResponse))
  /-- The `Promise.all` of the `k`-th in-flight batch resolves. -/
  | finishFiles (k : Nat)
  | removeImage (idx : Int)
  /-- User keystrokes setting the three text fields. -/
  | editFields (name email story : String)
  | submit (resp : SubmitOutcome) (now : String)
deriving Repr

structure AppState where
  comp : ComponentState
  pending : List PendingUpload
deriving DecidableEq, Repr

def initApp : AppState := { comp := initComp, pending := [] }

def step (a : AppState) : Event → AppState
  | Event.startFiles files =>
    if (files.filter (fun fr => isImageFile fr.1)).isEmpty then a
    else
      { comp := { a.comp with uploadingImages := true }
        pending := a.pending ++ [{ captured := a.comp.uploadedImages
                                   results := uploadResults files }] }
  | Event.finishFiles k =>
    match a.pending[k]? with
    | none => a
    | some p =>
      { comp := { a.comp with
                    uploadedImages := a.comp.uploadedImages ++ p.results
                    formImages := p.captured ++ p.results
                    uploadingImages := false }
        pending := a.pending.eraseIdx k }
  | Event.removeImage idx => { a with comp := removeImage idx a.comp }
  | Event.editFields n e s =>
    { a with comp := { a.comp with formName := n, formEmail := e, formStory := s } }
  | Event.submit resp now => { a with comp := (submitAttempt a.comp resp now).1 }

def execEvents (es : List Event) : AppState :=
  es.foldl step initApp

/-- Sequential (non-overlapping) interactions: each `handleFiles`
invocation completes before anything else happens. -/
inductive SeqEvent where
  | handleFiles (files : List (MyFile × UploadResponse))
  | removeImage (idx : Int)
  | editFields (name email story : String)
  | submit (resp : SubmitOutcome) (now : String)
deriving Repr

def seqToEvents : SeqEvent → List Event
  | SeqEvent.handleFiles files => [Event.startFiles files, Event.finishFiles 0]
  | SeqEvent.removeImage idx => [Event.removeImage idx]
  | SeqEvent.editFields n e s => [Event.editFields n e s]
  | SeqEvent.submit r now => [Event.submit r now]

def seqTrace : List SeqEvent → List Event
  | [] => []
  | e :: es => seqToEvents e ++ seqTrace es

/-! ## Concrete values used by witnesses and counterexamples -/

def imgA : UploadedImage :=
  { id := "idA", url := "https://imagedelivery.example/idA", filename := "a.png"
    variantsPublic := "https://imagedelivery.example/idA/public"
    variantsThumbnail := none }

def imgB : UploadedImage :=
  { id := "idB", url := "https://imagedelivery.example/idB", filename := "b.gif"
    variantsPublic := "https://imagedelivery.example/idB/public"
    variantsThumbnail := some "https://imagedelivery.example/idB/thumbnail" }

def fileA : MyFile := { name := "a.png", type := "image/png" }
def fileB : MyFile := { name := "b.gif", type := "image/gif" }
def filePdf : MyFile := { name := "notes.pdf", type := "application/pdf" }

/-- Two overlapping `handleFiles` batches: both invoked before either
completes, so both closures capture the empty attachment list. -/
def overlapTrace : List Event :=
  [Event.startFiles [(fileA, UploadResponse.apiSuccess imgA)],
   Event.startFiles [(fileB, UploadResponse.apiSuccess imgB)],
   Event.finishFiles 0,
   Event.finishFiles 0]

/-! ## Supporting lemmas about the sanitizer -/

theorem stripJSFuel_sublist : ∀ (n : Nat) (cs : List Char), stripJSFuel n cs <+ cs := by
  intro n
  induction n with
  | zero => intro cs; exact List.Sublist.refl cs
  | succ n ih =>
    intro cs
    cases cs with
    | nil => exact List.Sublist.refl []
    | cons c cs =>
      rw [stripJSFuel]
      by_cases h : matchesJSAt (c :: cs)
      · rw [if_pos h]
        exact ((ih _).trans (List.drop_sublist 10 cs)).trans (List.sublist_cons_self c cs)
      · rw [if_neg h]
        exact (ih cs).cons₂ c

theorem stripEvtFuel_sublist : ∀ (n : Nat) (cs : List Char), stripEvtFuel n cs <+ cs := by
  intro n
  induction n with
  | zero => intro cs; exact List.Sublist.refl cs
  | succ n ih =>
    intro cs
    cases cs with
    | nil => exact List.Sublist.refl []
    | cons c cs =>
      rw [stripEvtFuel]
      cases hL : evtMatchLen (c :: cs) with
      | none => exact (ih cs).cons₂ c
      | some L =>
        exact ((ih _).trans (List.drop_sublist (L - 1) cs)).trans
          (List.sublist_cons_self c cs)

theorem trimRight_sublist (cs : List Char) : trimRight cs <+ cs := by
  have h := (List.dropWhile_sublist (l := cs.reverse) isSpaceChar).reverse
  rwa [List.reverse_reverse] at h

theorem trimChars_sublist (cs : List Char) : trimChars cs <+ cs :=
  (trimRight_sublist _).trans (List.dropWhile_sublist _)

theorem sanitizeChars_sublist_filterAngle (cs : List Char) :
    sanitizeChars cs <+ filterAngle cs :=
  ((trimChars_sublist _).trans (stripEvtFuel_sublist _ _)).trans (stripJSFuel_sublist _ _)

theorem sanitizeChars_no_angle (cs : List Char) :
    '<' ∉ sanitizeChars cs ∧ '>' ∉ sanitizeChars cs := by
  have hsub := (sanitizeChars_sublist_filterAngle cs).subset
  constructor <;> intro hmem <;>
    simpa [filterAngle, List.mem_filter] using hsub hmem

theorem filterAngle_eq_self {cs : List Char} (h1 : '<' ∉ cs) (h2 : '>' ∉ cs) :
    filterAngle cs = cs := by
  apply List.filter_eq_self.mpr
  intro a ha
  have e1 : a ≠ '<' := fun e => h1 (e ▸ ha)
  have e2 : a ≠ '>' := fun e => h2 (e ▸ ha)
  simp [e1, e2]

theorem stripJSFuel_eq_self :
    ∀ (n : Nat) {cs : List Char}, hasJSOccurrence cs = false → stripJSFuel n cs = cs := by
  intro n
  induction n with
  | zero => intro cs _; rfl
  | succ n ih =>
    intro cs h
    cases cs with
    | nil => rfl
    | cons c cs =>
      rw [hasJSOccurrence, Bool.or_eq_false_iff] at h
      rw [stripJSFuel, if_neg (by simp [h.1]), ih h.2]

theorem stripEvtFuel_eq_self :
    ∀ (n : Nat) {cs : List Char}, hasEvtOccurrence cs = false → stripEvtFuel n cs = cs := by
  intro n
  induction n with
  | zero => intro cs _; rfl
  | succ n ih =>
    intro cs h
    cases cs with
    | nil => rfl
    | cons c cs =>
      rw [hasEvtOccurrence, Bool.or_eq_false_iff] at h
      have hnone : evtMatchLen (c :: cs) = none := by
        cases hL : evtMatchLen (c :: cs) with
        | none => rfl
        | some L => rw [hL] at h; simp at h
      rw [stripEvtFuel, hnone, ih h.2]

theorem dropWhile_head_false {p : Char → Bool} :
    ∀ {l : List Char} {c : Char} {cs : List Char},
      l.dropWhile p = c :: cs → p c = false := by
  intro l
  induction l with
  | nil => intro c cs h; simp [List.dropWhile] at h
  | cons x xs ih =>
    intro c cs h
    rw [List.dropWhile_cons] at h
    cases hx : p x with
    | true => rw [hx] at h; simp at h; exact ih h
    | false =>
      rw [hx] at h
      simp at h
      rw [← h.1]
      exact hx

theorem dropWhile_dropWhile (p : Char → Bool) (l : List Char) :
    List.dropWhile p (List.dropWhile p l) = List.dropWhile p l := by
  cases h : List.dropWhile p l with
  | nil => rfl
  | cons c cs => rw [List.dropWhile_cons, dropWhile_head_false h]; simp

theorem trimRight_trimRight (l : List Char) : trimRight (trimRight l) = trimRight l := by
  simp [trimRight, List.reverse_reverse, dropWhile_dropWhile]

theorem dropWhile_trimRight_dropWhile (l : List Char) :
    List.dropWhile isSpaceChar (trimRight (List.dropWhile isSpaceChar l)) =
      trimRight (List.dropWhile isSpaceChar l) := by
  cases h : trimRight (List.dropWhile isSpaceChar l) with
  | nil => rfl
  | cons b bs =>
    have hdec : List.dropWhile isSpaceChar l =
        (b :: bs) ++ ((List.dropWhile isSpaceChar l).reverse.takeWhile isSpaceChar).reverse := by
      have hsplit := List.takeWhile_append_dropWhile
        (p := isSpaceChar) (l := (List.dropWhile isSpaceChar l).reverse)
      calc List.dropWhile isSpaceChar l
        = (List.dropWhile isSpaceChar l).reverse.reverse := by rw [List.reverse_reverse]
      _ = ((List.dropWhile isSpaceChar l).reverse.takeWhile isSpaceChar ++
            (List.dropWhile isSpaceChar l).reverse.dropWhile isSpaceChar).reverse := by
            rw [hsplit]
      _ = (b :: bs) ++ ((List.dropWhile isSpaceChar l).reverse.takeWhile isSpaceChar).reverse := by
            rw [List.reverse_append, ← trimRight, h]
    have hb : isSpaceChar b = false := dropWhile_head_false hdec
    rw [List.dropWhile_cons, hb]
    simp

theorem trimChars_idem (l : List Char) : trimChars (trimChars l) = trimChars l := by
  rw [trimChars, trimChars, dropWhile_trimRight_dropWhile, trimRight_trimRight]

theorem sanitizeChars_idem_of {cs : List Char}
    (hJ : hasJSOccurrence (sanitizeChars cs) = false)
    (hE : hasEvtOccurrence (sanitizeChars cs) = false) :
    sanitizeChars (sanitizeChars cs) = sanitizeChars cs := by
  obtain ⟨h1, h2⟩ := sanitizeChars_no_angle cs
  conv_lhs => rw [sanitizeChars]
  rw [filterAngle_eq_self h1 h2, stripJSChars, stripJSFuel_eq_self _ hJ,
    stripEvtChars, stripEvtFuel_eq_self _ hE]
  conv_lhs => rw [sanitizeChars]
  exact trimChars_idem _

/-! ## Claim C2: idempotence of `sanitizeText` -/

/-- C2, counterexample.  `sanitizeText` is not idempotent: on
`"javonx=ascript:"` the event-handler pass removes `onx=` and thereby
assembles the string `javascript:`, which the (already finished)
`javascript:` pass never sees; a second application of `sanitizeText`
removes it.  So sanitizing already-sanitized text does not always yield
the same text. -/
theorem sanitizeText_not_idem :
    sanitizeText (sanitizeText "javonx=ascript:") ≠ sanitizeText "javonx=ascript:" ∧
    sanitizeText "javonx=ascript:" = "javascript:" ∧
    sanitizeText "javascript:" = "" := by
  refine ⟨by decide, by decide, by decide⟩

/-- C2, amended.  `sanitizeText` is idempotent on every input whose
sanitized form retains no occurrence of `javascript:` (case-insensitive)
and no inline event-handler pattern `on\w+\s*=`; each single-pass
removal step can reassemble such an occurrence out of its own deletions,
and exactly then a second application strips further. -/
theorem sanitizeText_idem_of_clean (t : String)
    (hJ : hasJSOccurrence (sanitizeText t).data = false)
    (hE : hasEvtOccurrence (sanitizeText t).data = false) :
    sanitizeText (sanitizeText t) = sanitizeText t :=
  congrArg String.mk (sanitizeChars_idem_of hJ hE)

/-- Witness for C2 at a concrete input whose sanitized form is clean. -/
theorem sanitizeText_idem_witness :
    hasJSOccurrence (sanitizeText "  <b>Hello</b> world  ").data = false ∧
    hasEvtOccurrence (sanitizeText "  <b>Hello</b> world  ").data = false ∧
    sanitizeText (sanitizeText "  <b>Hello</b> world  ") =
      sanitizeText "  <b>Hello</b> world  " :=
  ⟨by decide, by decide, sanitizeText_idem_of_clean _ (by decide) (by decide)⟩

/-! ## Claim C6: what the sanitizer guarantees about the payload -/

/-- C6, counterexample.  The payload is not free of `javascript:`: with
name `"javajavascript:script:"` the single pass of
`.replace(/javascript:/gi, '')` removes the inner occurrence and glues
the remaining halves into a new `javascript:`, which is what the
payload carries. -/
theorem payload_contains_javascript :
    (buildPayload
        { initComp with formName := "javajavascript:script:" }
        "2026-10-12T00:00:00.000Z").name = "javascript:" ∧
    hasJSOccurrence
      (buildPayload
        { initComp with formName := "javajavascript:script:" }
        "2026-10-12T00:00:00.000Z").name.data = true := by
  refine ⟨by decide, by decide⟩

/-- C6, amended.  The sanitized name and story placed in the submission
payload contain no `<` and no `>` (the angle-bracket pass removes every
occurrence and no later pass inserts characters); the `javascript:` and
event-handler patterns, however, are only stripped by one
non-reiterated pass, whose deletions can concatenate into new
occurrences that survive into the payload. -/
theorem payload_no_angle (c : ComponentState) (now : String) :
    '<' ∉ (buildPayload c now).name.data ∧ '>' ∉ (buildPayload c now).name.data ∧
    '<' ∉ (buildPayload c now).story.data ∧ '>' ∉ (buildPayload c now).story.data :=
  ⟨(sanitizeChars_no_angle c.formName.data).1,
   (sanitizeChars_no_angle c.formName.data).2,
   (sanitizeChars_no_angle c.formStory.data).1,
   (sanitizeChars_no_angle c.formStory.data).2⟩

/-! ## Claim C9: the payload's name and story are trimmed -/

/-- C9.  `sanitizeText` ends with `.trim()`, so the name and the story
placed in the submission payload carry no leading or trailing
whitespace: trimming them again changes nothing.  Sanitization
normalizes surrounding whitespace of name and story, not only of
email. -/
theorem payload_name_story_trimmed (c : ComponentState) (now : String) :
    trimChars (buildPayload c now).name.data = (buildPayload c now).name.data ∧
    trimChars (buildPayload c now).story.data = (buildPayload c now).story.data :=
  ⟨trimChars_idem _, trimChars_idem _⟩

/-! ## Claim C3: per-file upload failure is non-fatal to the batch -/

theorem uploadImage_eq_some {r : UploadResponse} {img : UploadedImage} :
    uploadImageToCloudflare r = some img ↔ r = UploadResponse.apiSuccess img := by
  cases r <;> simp [uploadImageToCloudflare]

def fileC : MyFile := { name := "c.jpg", type := "image/jpeg" }

/-- C3.  In a `handleFiles` batch, an image appears in the final
attachment list exactly when it was already there or some image file of
the batch got `{success: true}` for it; any file whose upload fails (a
rejected fetch, a non-ok HTTP status, or `{success: false}`) resolves
to `null` and is filtered out before merging, without excluding the
successful uploads of the same batch.  In particular, in a concrete
batch where two uploads fail in both documented ways, the third,
successful one is still the sole merge. -/
theorem handleFiles_partial_failure :
    (∀ (prev : List UploadedImage) (files : List (MyFile × UploadResponse))
        (img : UploadedImage),
      img ∈ handleFilesResult prev files ↔
        img ∈ prev ∨
          ∃ f : MyFile, isImageFile f = true ∧
            (f, UploadResponse.apiSuccess img) ∈ files) ∧
    handleFilesResult []
      [(fileA, UploadResponse.apiFailure (some "upload error")),
       (fileC, UploadResponse.httpNotOk),
       (fileB, UploadResponse.apiSuccess imgB)] = [imgB] := by
  constructor
  · intro prev files img
    rw [handleFilesResult, List.mem_append]
    apply or_congr Iff.rfl
    rw [uploadResults, List.mem_filterMap]
    constructor
    · rintro ⟨⟨f, r⟩, hmem, hup⟩
      rw [List.mem_filter] at hmem
      rw [uploadImage_eq_some] at hup
      subst hup
      exact ⟨f, hmem.2, hmem.1⟩
    · rintro ⟨f, hf, hmem⟩
      exact ⟨(f, UploadResponse.apiSuccess img), List.mem_filter.mpr ⟨hmem, hf⟩,
        by simp [uploadImageToCloudflare]⟩
  · decide

/-! ## Claim C8: only image-typed files are retained -/

/-- C8.  `handleFiles` retains exactly the files whose MIME type starts
with `image/` and discards every other file; with 3 dropped files of
which 1 is not an image, exactly the 2 image files remain. -/
theorem handleFiles_filters_images :
    (∀ (files : List MyFile) (f : MyFile),
      f ∈ imageFilesOf files ↔ f ∈ files ∧ isImageFile f = true) ∧
    imageFilesOf [fileA, filePdf, fileB] = [fileA, fileB] :=
  ⟨fun files f => by simp [imageFilesOf, List.mem_filter], by decide⟩

/-! ## Claim C7: story length and reaching the network call -/

/-- C7, counterexample.  A submit attempt whose story is between 10 and
5000 characters does not always reach the network call: `handleSubmit`
validates every field, so an invalid email (or name) blocks the
submission although the story passes its own rules. -/
theorem story_in_range_blocked_by_email :
    10 ≤ ("0123456789" : String).length ∧ ("0123456789" : String).length ≤ 5000 ∧
    (submitAttempt
      { initComp with formName := "Jo Martin", formEmail := "not-an-email",
                      formStory := "0123456789" }
      SubmitOutcome.ok "2026-10-12T00:00:00.000Z").2 = none := by
  refine ⟨by decide, by decide, by decide⟩

/-- C7, amended.  For every submit attempt whose name and email pass
their registered validation rules and whose story is between 10 and
5000 characters, validation succeeds and the POST to the submission
endpoint is made. -/
theorem story_in_range_submits (c : ComponentState) (resp : SubmitOutcome) (now : String)
    (hn : validName c.formName = true) (he : validEmail c.formEmail = true)
    (h10 : 10 ≤ c.formStory.length) (h5000 : c.formStory.length ≤ 5000) :
    (submitAttempt c resp now).2.isSome = true := by
  have hs : validStory c.formStory = true := by
    rw [validStory]
    simp only [Bool.and_eq_true, decide_eq_true_eq]
    omega
  have hp : submitProceeds c.formName c.formEmail c.formStory = true := by
    rw [submitProceeds, hn, he, hs]
    rfl
  rw [submitAttempt, if_pos hp]
  cases resp <;> rfl

/-- Witness for C7 at concrete valid field values. -/
theorem story_in_range_submits_witness :
    validName "Jo" = true ∧ validEmail "a@b.co" = true ∧
    10 ≤ ("0123456789" : String).length ∧ ("0123456789" : String).length ≤ 5000 ∧
    (submitAttempt
      { initComp with formName := "Jo", formEmail := "a@b.co", formStory := "0123456789" }
      SubmitOutcome.networkError "2026-10-12T00:00:00.000Z").2.isSome = true :=
  ⟨by decide, by decide, by decide, by decide,
    story_in_range_submits _ _ _ (by decide) (by decide) (by decide) (by decide)⟩

/-! ## Claims C4 and C5: the two outcomes of a submission -/

/-- A concrete state whose three fields pass every validation rule. -/
def validState : ComponentState :=
  { initComp with
      formName := "Jo Martin"
      formEmail := "Peter.Martin@Example.ORG"
      formStory := "Once upon a time there was a story."
      uploadedImages := [imgA]
      formImages := [imgA] }

/-- C4.  When the submission's fetch rejects or the response's HTTP
status is not a success, `onSubmit` catches the error, shows the single
generic message `Error submitting story. Please try again.`, logs the
error to the console, and leaves the three field values, the attachment
list and the registered `images` value untouched: no reset happens on
failure. -/
theorem onSubmit_failure_behavior (c : ComponentState) (resp : SubmitOutcome) (now : String)
    (hv : submitProceeds c.formName c.formEmail c.formStory = true)
    (hr : resp ≠ SubmitOutcome.ok) :
    (submitAttempt c resp now).1.submitMessage = errorMessage ∧
    (submitAttempt c resp now).1.formName = c.formName ∧
    (submitAttempt c resp now).1.formEmail = c.formEmail ∧
    (submitAttempt c resp now).1.formStory = c.formStory ∧
    (submitAttempt c resp now).1.uploadedImages = c.uploadedImages ∧
    (submitAttempt c resp now).1.formImages = c.formImages ∧
    (submitAttempt c resp now).1.errorLogCount = c.errorLogCount + 1 := by
  cases resp with
  | ok => exact absurd rfl hr
  | networkError => rw [submitAttempt, if_pos hv]; exact ⟨rfl, rfl, rfl, rfl, rfl, rfl, rfl⟩
  | httpNotOk => rw [submitAttempt, if_pos hv]; exact ⟨rfl, rfl, rfl, rfl, rfl, rfl, rfl⟩

/-- Witness for C4: a failing network call on a concrete valid state. -/
theorem onSubmit_failure_witness :
    submitProceeds validState.formName validState.formEmail validState.formStory = true ∧
    (submitAttempt validState SubmitOutcome.networkError "t").1.submitMessage = errorMessage ∧
    (submitAttempt validState SubmitOutcome.networkError "t").1.formStory =
      validState.formStory ∧
    (submitAttempt validState SubmitOutcome.networkError "t").1.uploadedImages =
      validState.uploadedImages :=
  ⟨by decide,
    (onSubmit_failure_behavior validState SubmitOutcome.networkError "t"
      (by decide) (by decide)).1,
    (onSubmit_failure_behavior validState SubmitOutcome.networkError "t"
      (by decide) (by decide)).2.2.2.1,
    (onSubmit_failure_behavior validState SubmitOutcome.networkError "t"
      (by decide) (by decide)).2.2.2.2.1⟩

/-- C5.  When the POST receives a success HTTP status, `onSubmit`
resets every form field and clears both the attachment list and the
registered `images` value — all are empty afterwards — and shows the
success message; and this reset happens on success only: on any other
outcome the fields and both lists are left as they were. -/
theorem onSubmit_success_resets (c : ComponentState) (now : String)
    (hv : submitProceeds c.formName c.formEmail c.formStory = true) :
    ((submitAttempt c SubmitOutcome.ok now).1.formName = "" ∧
     (submitAttempt c SubmitOutcome.ok now).1.formEmail = "" ∧
     (submitAttempt c SubmitOutcome.ok now).1.formStory = "" ∧
     (submitAttempt c SubmitOutcome.ok now).1.uploadedImages = [] ∧
     (submitAttempt c SubmitOutcome.ok now).1.formImages = [] ∧
     (submitAttempt c SubmitOutcome.ok now).1.submitMessage = successMessage) ∧
    (∀ resp : SubmitOutcome, resp ≠ SubmitOutcome.ok →
      (submitAttempt c resp now).1.formName = c.formName ∧
      (submitAttempt c resp now).1.formEmail = c.formEmail ∧
      (submitAttempt c resp now).1.formStory = c.formStory ∧
      (submitAttempt c resp now).1.uploadedImages = c.uploadedImages ∧
      (submitAttempt c resp now).1.formImages = c.formImages) := by
  constructor
  · rw [submitAttempt, if_pos hv]
    exact ⟨rfl, rfl, rfl, rfl, rfl, rfl⟩
  · intro resp hr
    cases resp with
    | ok => exact absurd rfl hr
    | networkError => rw [submitAttempt, if_pos hv]; exact ⟨rfl, rfl, rfl, rfl, rfl⟩
    | httpNotOk => rw [submitAttempt, if_pos hv]; exact ⟨rfl, rfl, rfl, rfl, rfl⟩

/-- Witness for C5 on a concrete valid state. -/
theorem onSubmit_success_witness :
    submitProceeds validState.formName validState.formEmail validState.formStory = true ∧
    (submitAttempt validState SubmitOutcome.ok "t").1.formStory = "" ∧
    (submitAttempt validState SubmitOutcome.ok "t").1.uploadedImages = [] ∧
    (submitAttempt validState SubmitOutcome.ok "t").1.formImages = [] ∧
    (submitAttempt validState SubmitOutcome.httpNotOk "t").1.uploadedImages =
      validState.uploadedImages :=
  ⟨by decide,
    (onSubmit_success_resets validState "t" (by decide)).1.2.2.1,
    (onSubmit_success_resets validState "t" (by decide)).1.2.2.2.1,
    (onSubmit_success_resets validState "t" (by decide)).1.2.2.2.2.1,
    ((onSubmit_success_resets validState "t" (by decide)).2 SubmitOutcome.httpNotOk
      (by decide)).2.2.2.1⟩

/-! ## Claim C10: out-of-range removal is a no-op -/

theorem removeAtIdx_out_of_range {idx : Int} {l : List UploadedImage}
    (h : idx < 0 ∨ (l.length : Int) ≤ idx) : removeAtIdx idx l = l := by
  rw [removeAtIdx]
  have hfil : l.enum.filter (fun p => ((p.1 : Int) != idx)) = l.enum := by
    apply List.filter_eq_self.mpr
    have : ∀ x : Nat × UploadedImage, x ∈ l.enum → (((x.1 : Nat) : Int) != idx) = true := by
      rw [List.forall_mem_enum]
      intro i hi
      have hcast : (i : Int) < (l.length : Int) := by exact_mod_cast hi
      simp only [bne_iff_ne, ne_eq]
      omega
    intro a ha
    exact this a ha
  rw [hfil]
  have := List.enumFrom_map_snd 0 l
  rwa [← List.enum] at this

/-- C10.  `removeImage` is a filter on positions, not an index access:
for every index outside `[0, length)` of the attachment list — negative
or too large — it removes nothing, and (the two lists being in sync, as
the component keeps them) both the attachment list and the registered
`images` value are left unchanged. -/
theorem removeImage_out_of_range (c : ComponentState) (idx : Int)
    (hsync : c.formImages = c.uploadedImages)
    (hout : idx < 0 ∨ (c.uploadedImages.length : Int) ≤ idx) :
    (removeImage idx c).uploadedImages = c.uploadedImages ∧
    (removeImage idx c).formImages = c.formImages := by
  rw [removeImage]
  rw [removeAtIdx_out_of_range hout, hsync]
  exact ⟨rfl, rfl⟩

/-- Witness for C10: removing index 5 (and, through the integer model,
any negative index is analogous) from a one-element list. -/
theorem removeImage_out_of_range_witness :
    validState.formImages = validState.uploadedImages ∧
    ((5 : Int) < 0 ∨ (validState.uploadedImages.length : Int) ≤ 5) ∧
    (removeImage 5 validState).uploadedImages = validState.uploadedImages ∧
    (removeImage 5 validState).formImages = validState.formImages :=
  ⟨by decide, by decide,
    (removeImage_out_of_range validState 5 (by decide) (by decide)).1,
    (removeImage_out_of_range validState 5 (by decide) (by decide)).2⟩

/-! ## Claim C1: the attachment list and the `images` form value -/

/-- The two lists agree and no upload batch is in flight. -/
def imagesSynced (a : AppState) : Prop :=
  a.comp.uploadedImages = a.comp.formImages ∧ a.pending = []

theorem seqEvent_preserves_sync (e : SeqEvent) (a : AppState) (h : imagesSynced a) :
    imagesSynced ((seqToEvents e).foldl step a) := by
  obtain ⟨hsync, hpend⟩ := h
  cases e with
  | handleFiles files =>
    simp only [seqToEvents, List.foldl_cons, List.foldl_nil, step]
    by_cases himg : (files.filter (fun fr => isImageFile fr.1)).isEmpty
    · rw [if_pos himg]
      simp only [step, hpend, List.getElem?_nil]
      exact ⟨hsync, hpend⟩
    · rw [if_neg himg]
      simp only [step, hpend, List.nil_append, List.getElem?_cons_zero,
        List.eraseIdx_cons_zero]
      exact ⟨rfl, rfl⟩
  | removeImage idx =>
    simp only [seqToEvents, List.foldl_cons, List.foldl_nil, step, removeImage]
    exact ⟨rfl, hpend⟩
  | editFields n em st =>
    simp only [seqToEvents, List.foldl_cons, List.foldl_nil, step]
    exact ⟨hsync, hpend⟩
  | submit resp now =>
    simp only [seqToEvents, List.foldl_cons, List.foldl_nil, step, submitAttempt]
    by_cases hp : submitProceeds a.comp.formName a.comp.formEmail a.comp.formStory = true
    · rw [if_pos hp]
      cases resp with
      | ok => exact ⟨rfl, hpend⟩
      | networkError => exact ⟨hsync, hpend⟩
      | httpNotOk => exact ⟨hsync, hpend⟩
    · rw [if_neg hp]
      exact ⟨hsync, hpend⟩

theorem seq_preserves_sync :
    ∀ (es : List SeqEvent) (a : AppState), imagesSynced a →
      imagesSynced ((seqTrace es).foldl step a) := by
  intro es
  induction es with
  | nil => intro a h; exact h
  | cons e es ih =>
    intro a h
    rw [seqTrace, List.foldl_append]
    exact ih _ (seqEvent_preserves_sync e a h)

/-- C1, counterexample.  The two writes of `handleFiles` are not
symmetric: `setUploadedImages` goes through the functional updater
`prev => [...prev, ...successfulUploads]`, while
`setValue('images', [...uploadedImages, ...successfulUploads])` reads
the `uploadedImages` captured by the handler's closure when it was
invoked.  The drop zone stays active while a batch uploads, so a second
batch can start before the first finishes; both closures then capture
the same (here empty) list, and after both complete the attachment list
holds both images while the registered `images` value holds only the
second — the invariant fails in a reachable state. -/
theorem overlapping_uploads_desync :
    (execEvents overlapTrace).comp.uploadedImages ≠
      (execEvents overlapTrace).comp.formImages ∧
    (execEvents overlapTrace).comp.uploadedImages = [imgA, imgB] ∧
    (execEvents overlapTrace).comp.formImages = [imgB] := by
  refine ⟨by decide, by decide, by decide⟩

/-- C1, amended.  As long as upload batches do not overlap — each
`handleFiles` invocation completes before the next event, so the list
its closure captured is still the current one — the invariant holds:
after any sequence of interactions (uploads with arbitrary per-file
outcomes, removals, edits, submissions with either outcome) the
attachment list and the form value registered under `images` are
identical; every operation that mutates one mirrors it to the other. -/
theorem seq_images_in_sync (es : List SeqEvent) :
    (execEvents (seqTrace es)).comp.uploadedImages =
      (execEvents (seqTrace es)).comp.formImages :=
  (seq_preserves_sync es initApp ⟨rfl, rfl⟩).1

end StoryApp
